import Mathlib

/-!
Verification development for the SavedModel loading core
(`src/saved_models.ts`): metagraph/signature extraction, dtype mapping,
tag-based signature resolution, and the session-sharing handle lifecycle.

The embedding follows the TypeScript source.  JavaScript `Map` objects and
plain objects used as string-keyed maps are embedded as association lists in
key-insertion order (JS iteration order).  Obvious transcription slips in the
source that could never compile (misspelled identifiers such as `nwe`,
`inputTensr`, `signatuerDef`) are read as the evident identifier; statements
that are well-formed but semantically surprising (such as line 150 assigning
the shape dimension list to the `name` field) are embedded exactly as
written.  Parts of this repository that the source file does not contain
(only their callers appear) are modelled from the spec and marked
`Modelled from the spec:` in their doc comments.
-/

namespace SavedModels

/-- Fixed file name of the artifact descriptor inside a SavedModel
directory (src line 29). -/
def SAVED_MODEL_FILE_NAME : String := "/saved_model.pb"

/-- Reserved TensorFlow-internal signature key skipped during extraction
(src line 31). -/
def SAVED_MODEL_INIT_OP_KEY : String := "__saved_model_init_op"

/-- Reverse lookup in an enumeration object (src lines 55-57):
`Object.keys(object).find(key => object[key] === value)`.  A JS object is
embedded as an association list in key-insertion order; the JS result
`undefined` is embedded as `none`. -/
def getEnumKeyFromValue (object : List (String × Nat)) (value : Nat) :
    Option String :=
  (object.find? (fun kv => kv.2 == value)).map (fun kv => kv.1)

/-- A portable tensor descriptor as surfaced to callers
(the `ModelTensorInfo` shape used by the handle accessors). -/
structure ModelTensorInfo where
  dtype : String
  tfDtype : String
  name : String
  shape : List Int
  deriving Repr, DecidableEq

/-- A signature bound to a handle: logical-name-keyed input and output
tensor maps (embedded as association lists in insertion order). -/
structure SignatureDefEntry where
  inputs : List (String × ModelTensorInfo)
  outputs : List (String × ModelTensorInfo)
  deriving Repr, DecidableEq

/-- One metagraph of a loaded catalog: its tag list and its
signature-name-keyed map of signature entries. -/
structure MetaGraph where
  tags : List String
  signatureDefs : List (String × SignatureDefEntry)
  deriving Repr, DecidableEq

/-- One row of the process-wide registry `loadedSavedModelPathMap`
(src lines 39-40): source path, metagraph tags, and backing session id. -/
structure RegistryEntry where
  path : String
  tags : List String
  sessionId : Nat
  deriving Repr, DecidableEq

/-- The registry `loadedSavedModelPathMap` (src lines 39-40): a
`Map<number, RegistryEntry>` keyed by handle id, embedded as an association
list in insertion order.  JS `Map` keys are unique. -/
abbrev Registry := List (Nat × RegistryEntry)

/-- The state of a `TFSavedModel` handle (src lines 195-201): session id,
JS-side handle id, bound signature, and the one-way `disposed` flag. -/
structure TFSavedModel where
  sessionId : Nat
  jsid : Nat
  signature : SignatureDefEntry
  disposed : Bool
  deriving Repr, DecidableEq

/-- `name.replace(/:0$/, '')` (src lines 213 and 227): strip one trailing
`":0"` output-index suffix when present, else leave the name unchanged. -/
def normalizeName (s : String) : String :=
  match s.data.reverse with
  | '0' :: ':' :: rest => String.mk rest.reverse
  | _ => s

/-- The `inputs` getter (src lines 209-216).  It collects the stored input
tensor records in key order and then mutates each record in place, stripping
a trailing `":0"` from its `name`; the returned array aliases the stored
records.  Embedded with explicit state passing: the first component is the
returned array, the second the handle after the in-place mutation. -/
def TFSavedModel.inputs (m : TFSavedModel) :
    List ModelTensorInfo × TFSavedModel :=
  let updated := m.signature.inputs.map
    (fun kv => (kv.1, { kv.2 with name := normalizeName kv.2.name }))
  (updated.map (fun kv => kv.2),
   { m with signature := { m.signature with inputs := updated } })

/-- The `outputs` getter (src lines 223-230), same shape as `inputs` but
over the output map. -/
def TFSavedModel.outputs (m : TFSavedModel) :
    List ModelTensorInfo × TFSavedModel :=
  let updated := m.signature.outputs.map
    (fun kv => (kv.1, { kv.2 with name := normalizeName kv.2.name }))
  (updated.map (fun kv => kv.2),
   { m with signature := { m.signature with outputs := updated } })

/-- `dispose()` (src lines 238-253).  On a live handle: set `disposed`,
delete this handle id from the registry, then scan the remaining entries;
if any still references the same session id, return without touching the
backend, otherwise call `backend.deleteSavedModel(sessionId)`.  On an
already-disposed handle: throw.  The backend call is embedded as the third
component of the result: `some sid` when `deleteSavedModel sid` was
invoked, `none` when it was not. -/
def TFSavedModel.dispose (m : TFSavedModel) (reg : Registry) :
    Except String (TFSavedModel × Registry × Option Nat) :=
  if !m.disposed then
    let m2 := { m with disposed := true }
    let reg2 := reg.filter (fun kv => kv.1 != m.jsid)
    if reg2.any (fun kv => kv.2.sessionId == m.sessionId) then
      Except.ok (m2, reg2, none)
    else
      Except.ok (m2, reg2, some m.sessionId)
  else
    Except.error "This SavedModel has already been deleted."

/-- Modelled from the spec: the helper `stringArraysHaveSameElements` is
called at src line 178 but its definition is not in the truncated source
file.  The spec (4.3) requires the tag comparison to hold exactly when the
two lists are equal as sets: order-independent, same cardinality, identical
membership. -/
def stringArraysHaveSameElements (a b : List String) : Bool :=
  a.length == b.length && a.all (fun x => b.contains x)
    && b.all (fun x => a.contains x)

/-- The signature resolver `getSignatureDefEntryFromMetaGraphInfo`
(src lines 173-186): scan the catalog in order; at the first metagraph whose
tag set matches, either return its entry for `signature` or throw naming the
missing signature; if the scan ends with no tag match, throw naming the
requested tags (the JS template `${tags}` joins the array with commas).
The misspelled source strings `SaveModel` and `nwe` (for `new`) are kept /
read as evident. -/
def getSignatureDefEntryFromMetaGraphInfo :
    List MetaGraph → List String → String → Except String SignatureDefEntry
  | [], tags, _ =>
    Except.error
      ("The SavedModel does not have tags: " ++ String.intercalate "," tags)
  | mg :: rest, tags, signature =>
    if stringArraysHaveSameElements tags mg.tags then
      match mg.signatureDefs.find? (fun kv => kv.1 == signature) with
      | none =>
        Except.error ("The SaveModel does not have signature: " ++ signature)
      | some kv => Except.ok kv.2
    else getSignatureDefEntryFromMetaGraphInfo rest tags signature

/-- Modelled from the spec: the protobuf `DataType` enumeration lives in the
external `./proto/api_pb` module (`messages.DataType`), not in the source.
Embedded as the enumeration object consulted by `getEnumKeyFromValue`,
listing the artifact-native dtype codes with their symbolic names. -/
def DataTypeEnum : List (String × Nat) :=
  [("DT_FLOAT", 1), ("DT_DOUBLE", 2), ("DT_INT32", 3), ("DT_UINT8", 4),
   ("DT_INT16", 5), ("DT_INT8", 6), ("DT_STRING", 7), ("DT_COMPLEX64", 8),
   ("DT_INT64", 9), ("DT_BOOL", 10)]

/-- Modelled from the spec: the table of symbolic dtype names that have a
portable equivalent (spec 4.1 names float32, int32, bool, string,
complex64 as the portable set). -/
def jsDtypeTable : List (String × String) :=
  [("DT_FLOAT", "float32"), ("DT_INT32", "int32"), ("DT_BOOL", "bool"),
   ("DT_STRING", "string"), ("DT_COMPLEX64", "complex64")]

/-- Modelled from the spec: `mapTFDtypeToJSDtype` is called at src lines 128
and 148 but its definition is not in the truncated source file.  Per the
spec (4.1) the dtype mapping fails with `UnknownDtype` when the code had no
defined symbolic name (the argument here is the `undefined`, i.e. `none`,
result of the reverse lookup) and with `UnsupportedDtype`, naming the
symbolic name, when that name has no portable equivalent. -/
def mapTFDtypeToJSDtype : Option String → Except String String
  | none => Except.error "UnknownDtype: dtype code has no defined symbolic name"
  | some key =>
    match jsDtypeTable.find? (fun kv => kv.1 == key) with
    | some kv => Except.ok kv.2
    | none => Except.error ("UnsupportedDtype: " ++ key)

/-- A tensor message inside a signature map of the deserialized artifact:
exposes `getDtype()`, `getName()` and `getTensorShape().getDimList()`
(external schema, spec section 6). -/
structure TensorInfoProto where
  dtype : Nat
  name : String
  dims : List Int
  deriving Repr, DecidableEq

/-- A signature entry message: nested input and output tensor maps
(association lists in key-insertion order). -/
structure SignatureDefProto where
  inputsMap : List (String × TensorInfoProto)
  outputsMap : List (String × TensorInfoProto)
  deriving Repr, DecidableEq

/-- A metagraph message: `getMetaInfoDef().getTagsList()` and
`getSignatureDefMap()`. -/
structure MetaGraphProto where
  tags : List String
  signatureDefMap : List (String × SignatureDefProto)
  deriving Repr, DecidableEq

/-- The deserialized artifact message: `getMetaGraphsList()`. -/
structure SavedModelMessage where
  metaGraphs : List MetaGraphProto
  deriving Repr, DecidableEq

/-- A dynamically-typed JS value as stored into an extracted tensor-info
field: a string, a dimension list, or `undefined` for a field the code
never assigns. -/
inductive JSVal where
  | str : String → JSVal
  | dims : List Int → JSVal
  | undef : JSVal
  deriving Repr, DecidableEq

/-- A tensor record built by the extractor.  `name` and `shape` are
`JSVal` because the extractor loop for outputs assigns the dimension list
to `name` (src line 150) and never assigns `shape`. -/
structure ExtractedTensorInfo where
  dtype : String
  tfDtype : Option String
  name : JSVal
  shape : JSVal
  deriving Repr, DecidableEq

/-- A signature entry built by the extractor (src line 154). -/
structure ExtractedSignatureDefEntry where
  inputs : List (String × ExtractedTensorInfo)
  outputs : List (String × ExtractedTensorInfo)
  deriving Repr, DecidableEq

/-- A metagraph record built by the extractor (src lines 94-96, 156). -/
structure ExtractedMetaGraph where
  tags : List String
  signatureDefs : List (String × ExtractedSignatureDefEntry)
  deriving Repr, DecidableEq

/-- Body of the input-tensor loop (src lines 124-132): reverse-map the
dtype code, map it to the portable dtype (propagating its failure), and
copy the tensor name and the shape dimension list from the tensor message
into the record. -/
def extractInputTensorInfo (t : TensorInfoProto) :
    Except String ExtractedTensorInfo := do
  let dtypeKey := getEnumKeyFromValue DataTypeEnum t.dtype
  let jsDtype ← mapTFDtypeToJSDtype dtypeKey
  Except.ok { dtype := jsDtype, tfDtype := dtypeKey,
              name := JSVal.str t.name, shape := JSVal.dims t.dims }

/-- Body of the output-tensor loop (src lines 144-151): as for inputs for
the dtype fields, but the source assigns the shape dimension list to the
`name` field (line 150) and assigns nothing to `shape`; embedded exactly as
written. -/
def extractOutputTensorInfo (t : TensorInfoProto) :
    Except String ExtractedTensorInfo := do
  let dtypeKey := getEnumKeyFromValue DataTypeEnum t.dtype
  let jsDtype ← mapTFDtypeToJSDtype dtypeKey
  Except.ok { dtype := jsDtype, tfDtype := dtypeKey,
              name := JSVal.dims t.dims, shape := JSVal.undef }

/-- The input-map `while` loop (src lines 119-133), iterating the map keys
in insertion order. -/
def extractInputsList :
    List (String × TensorInfoProto) →
    Except String (List (String × ExtractedTensorInfo))
  | [] => Except.ok []
  | kv :: rest => do
    let i ← extractInputTensorInfo kv.2
    let tail ← extractInputsList rest
    Except.ok ((kv.1, i) :: tail)

/-- The output-map `while` loop (src lines 139-152). -/
def extractOutputsList :
    List (String × TensorInfoProto) →
    Except String (List (String × ExtractedTensorInfo))
  | [] => Except.ok []
  | kv :: rest => do
    let o ← extractOutputTensorInfo kv.2
    let tail ← extractOutputsList rest
    Except.ok ((kv.1, o) :: tail)

/-- One signature entry of the signature-map loop (src lines 113-154):
build the `inputs` and `outputs` maps independently. -/
def extractSignatureDefEntry (sd : SignatureDefProto) :
    Except String ExtractedSignatureDefEntry := do
  let inputs ← extractInputsList sd.inputsMap
  let outputs ← extractOutputsList sd.outputsMap
  Except.ok { inputs := inputs, outputs := outputs }

/-- The signature-map `while` loop (src lines 104-155): walk the keys in
insertion order, skip the reserved key `__saved_model_init_op` with
`continue` (src lines 109-112), and store every other entry under its
key. -/
def extractSigList :
    List (String × SignatureDefProto) →
    Except String (List (String × ExtractedSignatureDefEntry))
  | [] => Except.ok []
  | kv :: rest =>
    if kv.1 = SAVED_MODEL_INIT_OP_KEY then extractSigList rest
    else do
      let e ← extractSignatureDefEntry kv.2
      let tail ← extractSigList rest
      Except.ok ((kv.1, e) :: tail)

/-- The metagraph `for` loop body (src lines 93-159): read the tag list,
build the signature map, push the metagraph record. -/
def extractMetaGraph (mg : MetaGraphProto) : Except String ExtractedMetaGraph := do
  let sigs ← extractSigList mg.signatureDefMap
  Except.ok { tags := mg.tags, signatureDefs := sigs }

/-- The loop of `getMetaGraphsFromSavedModel` over the metagraph list. -/
def extractMetaGraphList :
    List MetaGraphProto → Except String (List ExtractedMetaGraph)
  | [] => Except.ok []
  | mg :: rest => do
    let e ← extractMetaGraph mg
    let tail ← extractMetaGraphList rest
    Except.ok (e :: tail)

/-- `getMetaGraphsFromSavedModel` (src lines 83-161) applied to an already
deserialized artifact message. -/
def getMetaGraphsFromSavedModel (msg : SavedModelMessage) :
    Except String (List ExtractedMetaGraph) :=
  extractMetaGraphList msg.metaGraphs

/-- The ambient filesystem and deserializer seen by `readSavedModelProto`:
the set of paths that pass the `fs.accessSync(-, R_OK)` check, and the
opaque deserializer (spec section 6) giving the artifact message read from
a readable path. -/
structure FileSystem where
  readable : List String
  contents : String → SavedModelMessage

/-- `readSavedModelProto` (src lines 65-72): verify read access to
`path + SAVED_MODEL_FILE_NAME` and throw the specific not-found error
naming `path` when the check fails.  Modelled from the spec: the tail of
the function (reading the bytes and deserializing them) is missing from
the truncated source; per spec section 6 a readable file proceeds to the
opaque deserialization step, embedded via `fs.contents`. -/
def readSavedModelProto (fs : FileSystem) (path : String) :
    Except String SavedModelMessage :=
  if fs.readable.contains (path ++ SAVED_MODEL_FILE_NAME) then
    Except.ok (fs.contents (path ++ SAVED_MODEL_FILE_NAME))
  else
    Except.error
      ("There is no saved_model.pb file in the directory: " ++ path)

/-- Helper: a live dispose succeeds, and its components are the disposed
handle, the registry with this handle id removed, and a backend teardown
exactly when no remaining entry shares the session id. -/
theorem dispose_live_eq (m : TFSavedModel) (reg : Registry)
    (h : m.disposed = false) :
    m.dispose reg =
      Except.ok ({ m with disposed := true },
        reg.filter (fun kv => kv.1 != m.jsid),
        if (reg.filter (fun kv => kv.1 != m.jsid)).any
            (fun kv => kv.2.sessionId == m.sessionId)
        then none else some m.sessionId) := by
  unfold TFSavedModel.dispose
  rw [h]
  simp only [Bool.not_false, if_true]
  split <;> rfl

/-- C1: disposing a live handle removes its registry entry first and calls
the backend session destruction `deleteSavedModel` if and only if, after
that removal, no remaining registry entry references the same session id;
in particular, with two handles sharing one session id, disposing either
one first leaves the session alive and disposing the remaining one destroys
it (in either order). -/
theorem C1_dispose_session_teardown_iff_unreferenced :
    (∀ (m : TFSavedModel) (reg : Registry), m.disposed = false →
      ∃ m2 reg2 del,
        m.dispose reg = Except.ok (m2, reg2, del) ∧
        (∀ kv : Nat × RegistryEntry, kv ∈ reg2 ↔ kv ∈ reg ∧ kv.1 ≠ m.jsid) ∧
        (del = some m.sessionId ↔
          ∀ kv ∈ reg2, kv.2.sessionId ≠ m.sessionId) ∧
        (del = none ↔ ∃ kv ∈ reg2, kv.2.sessionId = m.sessionId)) ∧
    (∀ (sid idA idB : Nat) (sigA sigB : SignatureDefEntry)
        (eA eB : RegistryEntry),
      idA ≠ idB → eA.sessionId = sid → eB.sessionId = sid →
      (∃ mA, TFSavedModel.dispose ⟨sid, idA, sigA, false⟩ [(idA, eA), (idB, eB)]
          = Except.ok (mA, [(idB, eB)], none)) ∧
      (∃ mB, TFSavedModel.dispose ⟨sid, idB, sigB, false⟩ [(idB, eB)]
          = Except.ok (mB, [], some sid)) ∧
      (∃ mB, TFSavedModel.dispose ⟨sid, idB, sigB, false⟩ [(idA, eA), (idB, eB)]
          = Except.ok (mB, [(idA, eA)], none)) ∧
      (∃ mA, TFSavedModel.dispose ⟨sid, idA, sigA, false⟩ [(idA, eA)]
          = Except.ok (mA, [], some sid))) := by
  constructor
  · intro m reg h
    refine ⟨{ m with disposed := true },
      reg.filter (fun kv => kv.1 != m.jsid), _,
      dispose_live_eq m reg h, ?_, ?_, ?_⟩
    · intro kv
      simp [List.mem_filter, bne_iff_ne]
    · constructor
      · intro hdel kv hkv
        split at hdel
        · exact absurd hdel (by simp)
        · rename_i hany
          intro hc
          exact hany (List.any_eq_true.mpr ⟨kv, hkv, by simp [hc]⟩)
      · intro hnone
        split <;> rename_i hany
        · obtain ⟨kv, hkv, hs⟩ := List.any_eq_true.mp hany
          exact absurd (eq_of_beq hs) (hnone kv hkv)
        · rfl
    · constructor
      · intro hdel
        split at hdel
        · rename_i hany
          obtain ⟨kv, hkv, hs⟩ := List.any_eq_true.mp hany
          exact ⟨kv, hkv, eq_of_beq hs⟩
        · exact absurd hdel (by simp)
      · intro ⟨kv, hkv, hs⟩
        split <;> rename_i hany
        · rfl
        · exact absurd (List.any_eq_true.mpr ⟨kv, hkv, by simp [hs]⟩) hany
  · intro sid idA idB sigA sigB eA eB hne hA hB
    refine ⟨⟨⟨sid, idA, sigA, true⟩, ?_⟩, ⟨⟨sid, idB, sigB, true⟩, ?_⟩,
      ⟨⟨sid, idB, sigB, true⟩, ?_⟩, ⟨⟨sid, idA, sigA, true⟩, ?_⟩⟩
    · rw [dispose_live_eq _ _ rfl]
      have h2 : (idB != idA) = true := bne_iff_ne.mpr (Ne.symm hne)
      simp [List.filter, List.any, h2, hB]
    · rw [dispose_live_eq _ _ rfl]
      simp [List.filter, List.any]
    · rw [dispose_live_eq _ _ rfl]
      have h1 : (idA != idB) = true := bne_iff_ne.mpr hne
      simp [List.filter, List.any, h1, hA]
    · rw [dispose_live_eq _ _ rfl]
      simp [List.filter, List.any]

/-- Witness for C1 at concrete inputs: a handle with session 7, id 0,
registry holding its own entry and a sibling with the same session. -/
theorem C1_dispose_session_teardown_iff_unreferenced_witness :
    ∃ m2 reg2 del,
      TFSavedModel.dispose ⟨7, 0, ⟨[], []⟩, false⟩
          [(0, ⟨"/m", ["serve"], 7⟩), (1, ⟨"/m", ["serve"], 7⟩)] =
        Except.ok (m2, reg2, del) ∧
      (∀ kv : Nat × RegistryEntry,
        kv ∈ reg2 ↔ kv ∈ [(0, (⟨"/m", ["serve"], 7⟩ : RegistryEntry)),
          (1, ⟨"/m", ["serve"], 7⟩)] ∧ kv.1 ≠ 0) ∧
      (del = some 7 ↔ ∀ kv ∈ reg2, kv.2.sessionId ≠ 7) ∧
      (del = none ↔ ∃ kv ∈ reg2, kv.2.sessionId = 7) ∧
      ((∃ mA, TFSavedModel.dispose ⟨7, 0, ⟨[], []⟩, false⟩
           [(0, ⟨"/m", ["serve"], 7⟩), (1, ⟨"/m", ["serve"], 7⟩)] =
           Except.ok (mA, [(1, ⟨"/m", ["serve"], 7⟩)], none)) ∧
       (∃ mB, TFSavedModel.dispose ⟨7, 1, ⟨[], []⟩, false⟩
           [(1, ⟨"/m", ["serve"], 7⟩)] = Except.ok (mB, [], some 7)) ∧
       (∃ mB, TFSavedModel.dispose ⟨7, 1, ⟨[], []⟩, false⟩
           [(0, ⟨"/m", ["serve"], 7⟩), (1, ⟨"/m", ["serve"], 7⟩)] =
           Except.ok (mB, [(0, ⟨"/m", ["serve"], 7⟩)], none)) ∧
       (∃ mA, TFSavedModel.dispose ⟨7, 0, ⟨[], []⟩, false⟩
           [(0, ⟨"/m", ["serve"], 7⟩)] = Except.ok (mA, [], some 7))) := by
  obtain ⟨m2, reg2, del, h1, h2, h3, h4⟩ :=
    C1_dispose_session_teardown_iff_unreferenced.1
      ⟨7, 0, ⟨[], []⟩, false⟩
      [(0, ⟨"/m", ["serve"], 7⟩), (1, ⟨"/m", ["serve"], 7⟩)] rfl
  exact ⟨m2, reg2, del, h1, h2, h3, h4,
    C1_dispose_session_teardown_iff_unreferenced.2 7 0 1 ⟨[], []⟩ ⟨[], []⟩
      ⟨"/m", ["serve"], 7⟩ ⟨"/m", ["serve"], 7⟩ (by decide) rfl rfl⟩

/-- C4: disposing an already-disposed handle fails with the already-deleted
error and never silently succeeds, and the first dispose moves the handle
one-way from live to disposed (any later dispose of the resulting handle
fails). -/
theorem C4_dispose_exactly_once :
    (∀ (m : TFSavedModel) (reg : Registry), m.disposed = true →
      m.dispose reg =
        Except.error "This SavedModel has already been deleted.") ∧
    (∀ (m : TFSavedModel) (reg reg2 : Registry) (m2 : TFSavedModel)
        (del : Option Nat),
      m.disposed = false → m.dispose reg = Except.ok (m2, reg2, del) →
      m2.disposed = true ∧
      ∀ reg3 : Registry, m2.dispose reg3 =
        Except.error "This SavedModel has already been deleted.") := by
  constructor
  · intro m reg h
    unfold TFSavedModel.dispose
    rw [h]
    simp
  · intro m reg reg2 m2 del h hok
    rw [dispose_live_eq m reg h] at hok
    have hm2 : m2 = { m with disposed := true } := by
      cases hok
      rfl
    subst hm2
    refine ⟨rfl, fun reg3 => ?_⟩
    unfold TFSavedModel.dispose
    simp

/-- Witness for C4 at concrete inputs: an already-disposed handle fails,
and a live handle becomes disposed and then fails. -/
theorem C4_dispose_exactly_once_witness :
    TFSavedModel.dispose ⟨7, 0, ⟨[], []⟩, true⟩ [] =
      Except.error "This SavedModel has already been deleted." ∧
    ((⟨7, 0, ⟨[], []⟩, true⟩ : TFSavedModel).disposed = true ∧
     ∀ reg3 : Registry, TFSavedModel.dispose ⟨7, 0, ⟨[], []⟩, true⟩ reg3 =
       Except.error "This SavedModel has already been deleted.") := by
  refine ⟨C4_dispose_exactly_once.1 _ [] rfl, ?_⟩
  exact C4_dispose_exactly_once.2 ⟨7, 0, ⟨[], []⟩, false⟩ [] [] _ (some 7)
    rfl (by rw [dispose_live_eq _ _ rfl]; rfl)

/-- The tensor record of the scenario entry used by the resolver witness. -/
def demoTensorX : ModelTensorInfo :=
  { dtype := "float32", tfDtype := "DT_FLOAT", name := "input_x:0",
    shape := [-1, 4] }

/-- The scenario signature entry bound under the key `predict`. -/
def demoEntry : SignatureDefEntry := { inputs := [("x", demoTensorX)], outputs := [] }

/-- A second, different entry carried by a later metagraph with the same
tag set, to exercise the first-match tie-break. -/
def demoEntry2 : SignatureDefEntry := { inputs := [], outputs := [("y", demoTensorX)] }

/-- C2: the resolver scans the catalog in order for the first metagraph
whose tag set equals the requested tags as sets (order-independent, same
cardinality); on a match it returns the entry under the signature name or
fails naming the missing signature; with no tag match anywhere it fails
naming the requested tags; the first of several identically-tagged
metagraphs wins. -/
theorem C2_resolve_first_matching_tags :
    (∀ (a b : List String), stringArraysHaveSameElements a b = true ↔
      a.length = b.length ∧ ∀ x, x ∈ a ↔ x ∈ b) ∧
    (∀ (pre : List MetaGraph) (mg : MetaGraph) (rest : List MetaGraph)
        (tags : List String) (signature k : String) (e : SignatureDefEntry),
      (∀ mg2 ∈ pre, stringArraysHaveSameElements tags mg2.tags = false) →
      stringArraysHaveSameElements tags mg.tags = true →
      mg.signatureDefs.find? (fun kv => kv.1 == signature) = some (k, e) →
      getSignatureDefEntryFromMetaGraphInfo (pre ++ mg :: rest) tags signature
        = Except.ok e) ∧
    (∀ (pre : List MetaGraph) (mg : MetaGraph) (rest : List MetaGraph)
        (tags : List String) (signature : String),
      (∀ mg2 ∈ pre, stringArraysHaveSameElements tags mg2.tags = false) →
      stringArraysHaveSameElements tags mg.tags = true →
      mg.signatureDefs.find? (fun kv => kv.1 == signature) = none →
      getSignatureDefEntryFromMetaGraphInfo (pre ++ mg :: rest) tags signature
        = Except.error
            ("The SaveModel does not have signature: " ++ signature)) ∧
    (∀ (info : List MetaGraph) (tags : List String) (signature : String),
      (∀ mg2 ∈ info, stringArraysHaveSameElements tags mg2.tags = false) →
      getSignatureDefEntryFromMetaGraphInfo info tags signature
        = Except.error ("The SavedModel does not have tags: "
            ++ String.intercalate "," tags)) := by
  refine ⟨?_, ?_, ?_, ?_⟩
  · intro a b
    simp only [stringArraysHaveSameElements, Bool.and_eq_true, beq_iff_eq,
      List.all_eq_true, List.elem_iff]
    constructor
    · rintro ⟨⟨hlen, hab⟩, hba⟩
      exact ⟨hlen, fun x => ⟨fun hx => hab x hx, fun hx => hba x hx⟩⟩
    · rintro ⟨hlen, hiff⟩
      exact ⟨⟨hlen, fun x hx => (hiff x).mp hx⟩, fun x hx => (hiff x).mpr hx⟩
  · intro pre
    induction pre with
    | nil =>
      intro mg rest tags signature k e _ hmg hfind
      simp [getSignatureDefEntryFromMetaGraphInfo, hmg, hfind]
    | cons p ps ih =>
      intro mg rest tags signature k e hpre hmg hfind
      have hp := hpre p (List.mem_cons_self p ps)
      simp only [List.cons_append, getSignatureDefEntryFromMetaGraphInfo, hp,
        Bool.false_eq_true, if_false]
      exact ih mg rest tags signature k e
        (fun mg2 h => hpre mg2 (List.mem_cons_of_mem p h)) hmg hfind
  · intro pre
    induction pre with
    | nil =>
      intro mg rest tags signature _ hmg hfind
      simp [getSignatureDefEntryFromMetaGraphInfo, hmg, hfind]
    | cons p ps ih =>
      intro mg rest tags signature hpre hmg hfind
      have hp := hpre p (List.mem_cons_self p ps)
      simp only [List.cons_append, getSignatureDefEntryFromMetaGraphInfo, hp,
        Bool.false_eq_true, if_false]
      exact ih mg rest tags signature
        (fun mg2 h => hpre mg2 (List.mem_cons_of_mem p h)) hmg hfind
  · intro info
    induction info with
    | nil => intro tags signature _; rfl
    | cons p ps ih =>
      intro tags signature hall
      have hp := hall p (List.mem_cons_self p ps)
      simp only [getSignatureDefEntryFromMetaGraphInfo, hp,
        Bool.false_eq_true, if_false]
      exact ih tags signature (fun mg2 h => hall mg2 (List.mem_cons_of_mem p h))

/-- Witness for C2 at the concrete scenario of the spec: one metagraph
tagged `serve` carrying `predict` (plus a second identically-tagged
metagraph, showing the first wins), resolved for `predict`, for a missing
`classify`, and for unmatched tags `train`. -/
theorem C2_resolve_first_matching_tags_witness :
    getSignatureDefEntryFromMetaGraphInfo
        [⟨["serve"], [("predict", demoEntry)]⟩,
         ⟨["serve"], [("predict", demoEntry2)]⟩] ["serve"] "predict"
      = Except.ok demoEntry ∧
    getSignatureDefEntryFromMetaGraphInfo
        [⟨["serve"], [("predict", demoEntry)]⟩] ["serve"] "classify"
      = Except.error "The SaveModel does not have signature: classify" ∧
    getSignatureDefEntryFromMetaGraphInfo
        [⟨["serve"], [("predict", demoEntry)]⟩] ["train"] "predict"
      = Except.error "The SavedModel does not have tags: train" ∧
    stringArraysHaveSameElements ["a", "b"] ["b", "a"] = true := by
  refine ⟨?_, ?_, ?_, ?_⟩
  · exact C2_resolve_first_matching_tags.2.1 []
      ⟨["serve"], [("predict", demoEntry)]⟩
      [⟨["serve"], [("predict", demoEntry2)]⟩] ["serve"] "predict" "predict"
      demoEntry (by simp) (by decide) rfl
  · exact C2_resolve_first_matching_tags.2.2.1 []
      ⟨["serve"], [("predict", demoEntry)]⟩ [] ["serve"] "classify"
      (by simp) (by decide) rfl
  · exact C2_resolve_first_matching_tags.2.2.2
      [⟨["serve"], [("predict", demoEntry)]⟩] ["train"] "predict"
      (by intro mg2 h; simp at h; subst h; decide)
  · exact (C2_resolve_first_matching_tags.1 ["a", "b"] ["b", "a"]).mpr
      (by constructor
          · rfl
          · intro x
            constructor <;> (intro hx; simp at hx; rcases hx with h | h <;>
              simp [h]))

/-- Stripping behaviour of the accessor normalization: a name that ends in
the output-index marker `":0"` loses exactly that suffix. -/
theorem normalizeName_strip (t : String) : normalizeName (t ++ ":0") = t := by
  obtain ⟨l⟩ := t
  show normalizeName (String.mk (l ++ [':', '0'])) = String.mk l
  unfold normalizeName
  simp [List.reverse_append]

/-- A name that does not end in the output-index marker is surfaced
unchanged by the accessor normalization. -/
theorem normalizeName_eq_self (s : String) (h : ∀ t : String, s ≠ t ++ ":0") :
    normalizeName s = s := by
  unfold normalizeName
  split
  · rename_i rest hrev
    exfalso
    apply h (String.mk rest.reverse)
    apply String.ext
    have h2 : s.data = rest.reverse ++ [':', '0'] := by
      have := congrArg List.reverse hrev
      simpa using this
    rw [h2]
    rfl
  · rfl

/-- The normalization is idempotent on every name that does not end in a
doubled marker `":0:0"`. -/
theorem normalizeName_twice (n : String) (h : ∀ t : String, n ≠ t ++ ":0:0") :
    normalizeName (normalizeName n) = normalizeName n := by
  have key : normalizeName n = n ∨
      ∃ rest : List Char, n.data.reverse = '0' :: ':' :: rest ∧
        normalizeName n = String.mk rest.reverse := by
    unfold normalizeName
    split
    · rename_i rest hrev
      exact Or.inr ⟨rest, hrev, rfl⟩
    · exact Or.inl rfl
  rcases key with hn | ⟨rest, hrev, hn⟩
  · rw [hn]
    exact hn
  · rw [hn]
    apply normalizeName_eq_self
    intro t ht
    apply h t
    have h1 : rest.reverse = t.data ++ [':', '0'] := congrArg String.data ht
    have h2 : n.data = rest.reverse ++ [':', '0'] := by
      have := congrArg List.reverse hrev
      simpa using this
    apply String.ext
    rw [h2, h1]
    show (t.data ++ [':', '0']) ++ [':', '0'] = t.data ++ [':', '0', ':', '0']
    simp

/-- C5: every tensor record surfaced by the `inputs` or `outputs` accessor
carries the stored graph-internal name with the trailing output-index
suffix `":0"` stripped when present and unchanged otherwise: a name of the
form `t ++ ":0"` is surfaced as `t` (so `"output:0"` becomes `"output"`)
and a name not of that form (such as `"output"`) is surfaced unchanged. -/
theorem C5_surfaced_names_have_suffix_stripped :
    (∀ m : TFSavedModel,
      ((m.inputs).1).map (fun i => i.name) =
        (m.signature.inputs).map (fun kv => normalizeName kv.2.name) ∧
      ((m.outputs).1).map (fun i => i.name) =
        (m.signature.outputs).map (fun kv => normalizeName kv.2.name)) ∧
    (∀ t : String, normalizeName (t ++ ":0") = t) ∧
    (∀ s : String, (∀ t : String, s ≠ t ++ ":0") → normalizeName s = s) ∧
    normalizeName "output:0" = "output" ∧
    normalizeName "output" = "output" := by
  refine ⟨?_, normalizeName_strip, normalizeName_eq_self, rfl, rfl⟩
  intro m
  constructor
  · simp [TFSavedModel.inputs, List.map_map]
  · simp [TFSavedModel.outputs, List.map_map]

/-- Witness for C5: the general part applied to a concrete handle, and the
no-suffix part applied at `"output"`. -/
theorem C5_surfaced_names_have_suffix_stripped_witness :
    ((TFSavedModel.inputs ⟨7, 0, ⟨[("x", demoTensorX)], []⟩, false⟩).1).map
        (fun i => i.name) =
      [("x", demoTensorX)].map (fun kv => normalizeName kv.2.name) ∧
    normalizeName "output" = "output" := by
  refine ⟨(C5_surfaced_names_have_suffix_stripped.1
    ⟨7, 0, ⟨[("x", demoTensorX)], []⟩, false⟩).1, ?_⟩
  apply C5_surfaced_names_have_suffix_stripped.2.2.1 "output"
  intro t ht
  have h1 : ['o', 'u', 't', 'p', 'u', 't'] = t.data ++ [':', '0'] :=
    congrArg String.data ht
  have h2 := congrArg List.reverse h1
  simp [List.reverse_append] at h2

/-- A float tensor record with the given stored graph-internal name, used
by the accessor counterexamples and witnesses. -/
def namedTensor (n : String) : ModelTensorInfo :=
  { dtype := "float32", tfDtype := "DT_FLOAT", name := n, shape := [1] }

/-- The concrete handle refuting claim C6 as stated: one input tensor whose
stored graph-internal name is `"a:0:0"`. -/
def cexHandleC6 : TFSavedModel :=
  ⟨7, 0, { inputs := [("x", namedTensor "a:0:0")], outputs := [] }, false⟩

/-- Counterexample to C6 as stated: on a live handle whose stored input
name is `"a:0:0"`, the first `inputs` call surfaces `"a:0"` but, because
the getter mutates the stored records in place, the second call surfaces
`"a"` — the two calls do not return equal sequences. -/
theorem C6_counterexample_repeated_inputs_differ :
    ((cexHandleC6.inputs).1).map (fun i => i.name) = ["a:0"] ∧
    (((cexHandleC6.inputs).2.inputs).1).map (fun i => i.name) = ["a"] ∧
    ((cexHandleC6.inputs).2.inputs).1 ≠ (cexHandleC6.inputs).1 := by
  refine ⟨rfl, rfl, ?_⟩
  intro h
  have h2 := congrArg (List.map (fun i : ModelTensorInfo => i.name)) h
  have h3 : (["a"] : List String) = ["a:0"] := h2
  exact absurd h3 (by decide)

/-- C6 amended: calling `inputs` (resp. `outputs`) twice on a non-disposed
handle returns equal sequences both times, provided no stored tensor name
of the accessed map ends in a doubled output-index marker `":0:0"` (for
such a name the in-place normalization of the first call exposes a second
suffix that the second call also strips). -/
theorem C6_amended_idempotent_accessors (m : TFSavedModel)
    (hin : ∀ kv ∈ m.signature.inputs, ∀ t : String, kv.2.name ≠ t ++ ":0:0")
    (hout : ∀ kv ∈ m.signature.outputs, ∀ t : String,
      kv.2.name ≠ t ++ ":0:0") :
    ((m.inputs).2.inputs).1 = (m.inputs).1 ∧
    ((m.outputs).2.outputs).1 = (m.outputs).1 := by
  constructor
  · simp only [TFSavedModel.inputs, List.map_map]
    apply List.map_congr_left
    intro kv hkv
    simp only [Function.comp]
    rw [normalizeName_twice kv.2.name (hin kv hkv)]
  · simp only [TFSavedModel.outputs, List.map_map]
    apply List.map_congr_left
    intro kv hkv
    simp only [Function.comp]
    rw [normalizeName_twice kv.2.name (hout kv hkv)]

/-- The concrete handle used by the C6 and C7 witnesses: input name
`"output:0"`, output name `"out"`. -/
def witHandle : TFSavedModel :=
  ⟨7, 0, { inputs := [("x", namedTensor "output:0")],
           outputs := [("y", namedTensor "out")] }, false⟩

/-- Witness for the amended C6 at the concrete handle `witHandle`. -/
theorem C6_amended_idempotent_accessors_witness :
    ((witHandle.inputs).2.inputs).1 = (witHandle.inputs).1 ∧
    ((witHandle.outputs).2.outputs).1 = (witHandle.outputs).1 := by
  apply C6_amended_idempotent_accessors witHandle
  · intro kv hkv t ht
    simp only [witHandle, namedTensor, List.mem_singleton] at hkv
    subst hkv
    have h1 : ("output:0").data = t.data ++ [':', '0', ':', '0'] :=
      congrArg String.data ht
    have h2 := congrArg List.reverse h1
    simp [List.reverse_append] at h2
  · intro kv hkv t ht
    simp only [witHandle, namedTensor, List.mem_singleton] at hkv
    subst hkv
    have h1 : ("out").data = t.data ++ [':', '0', ':', '0'] :=
      congrArg String.data ht
    have h2 := congrArg List.reverse h1
    simp [List.reverse_append] at h2

/-- The concrete handle refuting claim C7 as stated: one input tensor whose
stored graph-internal name is `"output:0"`. -/
def cexHandleC7 : TFSavedModel :=
  ⟨7, 0, { inputs := [("x", namedTensor "output:0")], outputs := [] }, false⟩

/-- Counterexample to C7 as stated: the `inputs` getter is not pure — it
rewrites the stored name `"output:0"` of the bound signature entry to
`"output"` in place, so the handle state after the call differs from the
state before it. -/
theorem C7_counterexample_accessor_mutates :
    ((cexHandleC7.inputs).2.signature.inputs).map (fun kv => kv.2.name)
      = ["output"] ∧
    (cexHandleC7.signature.inputs).map (fun kv => kv.2.name)
      = ["output:0"] ∧
    (cexHandleC7.inputs).2.signature ≠ cexHandleC7.signature := by
  refine ⟨rfl, rfl, ?_⟩
  intro h
  have h2 := congrArg
    (fun e : SignatureDefEntry =>
      e.inputs.map (fun kv => kv.2.name)) h
  have h3 : (["output"] : List String) = ["output:0"] := h2
  exact absurd h3 (by decide)

/-- C7 amended: the accessors leave every handle field unchanged except the
name fields of the stored tensor records of the accessed map, which are
normalized in place (trailing `":0"` stripped); the session id, handle id,
disposed flag, the other tensor map, and the keys and non-name fields of
the accessed map are unchanged, and a handle none of whose accessed names
ends in `":0"` is left entirely unchanged. -/
theorem C7_amended_accessor_frame (m : TFSavedModel) :
    ((m.inputs).2.sessionId = m.sessionId ∧ (m.inputs).2.jsid = m.jsid ∧
      (m.inputs).2.disposed = m.disposed ∧
      (m.inputs).2.signature.outputs = m.signature.outputs ∧
      (m.inputs).2.signature.inputs = m.signature.inputs.map
        (fun kv => (kv.1, { kv.2 with name := normalizeName kv.2.name }))) ∧
    ((m.outputs).2.sessionId = m.sessionId ∧ (m.outputs).2.jsid = m.jsid ∧
      (m.outputs).2.disposed = m.disposed ∧
      (m.outputs).2.signature.inputs = m.signature.inputs ∧
      (m.outputs).2.signature.outputs = m.signature.outputs.map
        (fun kv => (kv.1, { kv.2 with name := normalizeName kv.2.name }))) ∧
    ((∀ kv ∈ m.signature.inputs, ∀ t : String, kv.2.name ≠ t ++ ":0") →
      (m.inputs).2 = m) ∧
    ((∀ kv ∈ m.signature.outputs, ∀ t : String, kv.2.name ≠ t ++ ":0") →
      (m.outputs).2 = m) := by
  refine ⟨⟨rfl, rfl, rfl, rfl, rfl⟩, ⟨rfl, rfl, rfl, rfl, rfl⟩, ?_, ?_⟩
  · intro h
    have hmap : m.signature.inputs.map
        (fun kv => (kv.1, { kv.2 with name := normalizeName kv.2.name }))
        = m.signature.inputs := by
      conv_rhs => rw [← List.map_id m.signature.inputs]
      apply List.map_congr_left
      intro kv hkv
      rw [normalizeName_eq_self kv.2.name (h kv hkv)]
      rfl
    simp only [TFSavedModel.inputs]
    rw [hmap]
  · intro h
    have hmap : m.signature.outputs.map
        (fun kv => (kv.1, { kv.2 with name := normalizeName kv.2.name }))
        = m.signature.outputs := by
      conv_rhs => rw [← List.map_id m.signature.outputs]
      apply List.map_congr_left
      intro kv hkv
      rw [normalizeName_eq_self kv.2.name (h kv hkv)]
      rfl
    simp only [TFSavedModel.outputs]
    rw [hmap]

/-- Witness for the amended C7: a frame equality at a concrete handle, and
full preservation for a handle whose names carry no suffix. -/
theorem C7_amended_accessor_frame_witness :
    ((TFSavedModel.inputs
        ⟨7, 0, ⟨[("x", namedTensor "output")], []⟩, false⟩).2.jsid = 0) ∧
    (TFSavedModel.inputs
        ⟨7, 0, ⟨[("x", namedTensor "output")], []⟩, false⟩).2 =
      ⟨7, 0, ⟨[("x", namedTensor "output")], []⟩, false⟩ := by
  constructor
  · exact (C7_amended_accessor_frame
      ⟨7, 0, ⟨[("x", namedTensor "output")], []⟩, false⟩).1.2.1
  · apply (C7_amended_accessor_frame
      ⟨7, 0, ⟨[("x", namedTensor "output")], []⟩, false⟩).2.2.1
    intro kv hkv t ht
    simp only [namedTensor, List.mem_singleton] at hkv
    subst hkv
    have h1 : ("output").data = t.data ++ [':', '0'] :=
      congrArg String.data ht
    have h2 := congrArg List.reverse h1
    simp [List.reverse_append] at h2

/-- If the signature-map loop succeeds, its output holds no entry under the
reserved key, and holds, under its own key, the extraction of every
non-reserved source entry. -/
theorem extractSigList_ok_spec :
    ∀ (l : List (String × SignatureDefProto))
      (out : List (String × ExtractedSignatureDefEntry)),
      extractSigList l = Except.ok out →
      (∀ kv ∈ out, kv.1 ≠ SAVED_MODEL_INIT_OP_KEY) ∧
      (∀ kv ∈ l, kv.1 ≠ SAVED_MODEL_INIT_OP_KEY →
        ∃ e, extractSignatureDefEntry kv.2 = Except.ok e ∧ (kv.1, e) ∈ out)
  | [], out, h => by
    simp only [extractSigList, Except.ok.injEq] at h
    subst h
    exact ⟨by simp, by simp⟩
  | kv :: rest, out, h => by
    by_cases hk : kv.1 = SAVED_MODEL_INIT_OP_KEY
    · simp only [extractSigList, if_pos hk] at h
      obtain ⟨h1, h2⟩ := extractSigList_ok_spec rest out h
      refine ⟨h1, ?_⟩
      intro kv2 hmem hne
      rcases List.mem_cons.mp hmem with heq | hmem2
      · subst heq
        exact absurd hk hne
      · exact h2 kv2 hmem2 hne
    · simp only [extractSigList, if_neg hk] at h
      cases he : extractSignatureDefEntry kv.2 with
      | error msg =>
        rw [he] at h
        simp [Bind.bind, Except.bind] at h
      | ok e =>
        rw [he] at h
        cases ht : extractSigList rest with
        | error msg =>
          rw [ht] at h
          simp [Bind.bind, Except.bind] at h
        | ok tail =>
          rw [ht] at h
          simp only [Bind.bind, Except.bind, Except.ok.injEq] at h
          subst h
          obtain ⟨h1, h2⟩ := extractSigList_ok_spec rest tail ht
          constructor
          · intro kv2 hmem
            rcases List.mem_cons.mp hmem with heq | hmem2
            · subst heq
              exact hk
            · exact h1 kv2 hmem2
          · intro kv2 hmem hne
            rcases List.mem_cons.mp hmem with heq | hmem2
            · subst heq
              exact ⟨e, he, List.mem_cons_self _ _⟩
            · obtain ⟨e2, he2, hmem3⟩ := h2 kv2 hmem2 hne
              exact ⟨e2, he2, List.mem_cons_of_mem _ hmem3⟩

/-- A successful metagraph extraction copies the tag list and the result of
the signature-map loop. -/
theorem extractMetaGraph_ok_spec (mg : MetaGraphProto)
    (emg : ExtractedMetaGraph) (h : extractMetaGraph mg = Except.ok emg) :
    emg.tags = mg.tags ∧
    extractSigList mg.signatureDefMap = Except.ok emg.signatureDefs := by
  unfold extractMetaGraph at h
  cases hs : extractSigList mg.signatureDefMap with
  | error e =>
    rw [hs] at h
    simp [Bind.bind, Except.bind] at h
  | ok sigs =>
    rw [hs] at h
    simp only [Bind.bind, Except.bind, Except.ok.injEq] at h
    subst h
    exact ⟨rfl, rfl⟩

/-- A successful run of the metagraph loop extracts the metagraphs
pointwise. -/
theorem extractMetaGraphList_ok_spec :
    ∀ (l : List MetaGraphProto) (out : List ExtractedMetaGraph),
      extractMetaGraphList l = Except.ok out →
      List.Forall₂ (fun mg emg => extractMetaGraph mg = Except.ok emg) l out
  | [], out, h => by
    simp only [extractMetaGraphList, Except.ok.injEq] at h
    subst h
    exact List.Forall₂.nil
  | mg :: rest, out, h => by
    simp only [extractMetaGraphList] at h
    cases he : extractMetaGraph mg with
    | error e =>
      rw [he] at h
      simp [Bind.bind, Except.bind] at h
    | ok emg =>
      rw [he] at h
      cases ht : extractMetaGraphList rest with
      | error e =>
        rw [ht] at h
        simp [Bind.bind, Except.bind] at h
      | ok tail =>
        rw [ht] at h
        simp only [Bind.bind, Except.bind, Except.ok.injEq] at h
        subst h
        exact List.Forall₂.cons he (extractMetaGraphList_ok_spec rest tail ht)

/-- C8: whenever extraction succeeds, no produced metagraph stores a
signature under the reserved key `__saved_model_init_op`, while every other
signature entry of the corresponding source metagraph is extracted and
stored under its own key. -/
theorem C8_extractor_skips_reserved_init_op_key :
    ∀ (msg : SavedModelMessage) (catalog : List ExtractedMetaGraph),
      getMetaGraphsFromSavedModel msg = Except.ok catalog →
      List.Forall₂ (fun (mg : MetaGraphProto) (emg : ExtractedMetaGraph) =>
          (∀ kv ∈ emg.signatureDefs, kv.1 ≠ "__saved_model_init_op") ∧
          (∀ kv ∈ mg.signatureDefMap, kv.1 ≠ "__saved_model_init_op" →
            ∃ e, extractSignatureDefEntry kv.2 = Except.ok e ∧
              (kv.1, e) ∈ emg.signatureDefs))
        msg.metaGraphs catalog := by
  intro msg catalog h
  have hf := extractMetaGraphList_ok_spec msg.metaGraphs catalog h
  refine List.Forall₂.imp ?_ hf
  intro mg emg hmg
  obtain ⟨_, hsigs⟩ := extractMetaGraph_ok_spec mg emg hmg
  exact extractSigList_ok_spec mg.signatureDefMap emg.signatureDefs hsigs

/-- The artifact message of the C8 witness: one metagraph whose signature
map holds the reserved initializing key and an ordinary key. -/
def msgC8 : SavedModelMessage :=
  ⟨[⟨["serve"], [("__saved_model_init_op", ⟨[], []⟩),
     ("predict", ⟨[], []⟩)]⟩]⟩

/-- Witness for C8: extraction of `msgC8` drops the reserved key and keeps
`predict`. -/
theorem C8_extractor_skips_reserved_init_op_key_witness :
    getMetaGraphsFromSavedModel msgC8 =
      Except.ok [⟨["serve"], [("predict", ⟨[], []⟩)]⟩] ∧
    List.Forall₂ (fun (mg : MetaGraphProto) (emg : ExtractedMetaGraph) =>
        (∀ kv ∈ emg.signatureDefs, kv.1 ≠ "__saved_model_init_op") ∧
        (∀ kv ∈ mg.signatureDefMap, kv.1 ≠ "__saved_model_init_op" →
          ∃ e, extractSignatureDefEntry kv.2 = Except.ok e ∧
            (kv.1, e) ∈ emg.signatureDefs))
      msgC8.metaGraphs [⟨["serve"], [("predict", ⟨[], []⟩)]⟩] :=
  ⟨rfl, C8_extractor_skips_reserved_init_op_key msgC8
    [⟨["serve"], [("predict", ⟨[], []⟩)]⟩] rfl⟩

/-- The output tensor message exhibiting the C3 defect: name `out:0`,
shape `[2, 3]`, dtype code 1 (`DT_FLOAT`). -/
def tensorOutProto : TensorInfoProto := ⟨1, "out:0", [2, 3]⟩

/-- The artifact message exhibiting the C3 defect: one metagraph, one
signature `predict`, one input tensor and one output tensor. -/
def msgC3 : SavedModelMessage :=
  ⟨[⟨["serve"], [("predict",
    ⟨[("x", ⟨1, "in:0", [1, 2]⟩)], [("y", tensorOutProto)]⟩)]⟩]⟩

/-- C3 evaluated at the failing input: the extractor builds the input
record with `name` from the tensor name field and `shape` from the shape
field, but builds the output record with `name` holding the shape
dimension list (src line 150) and `shape` never assigned — it does not
copy the output tensor name `out:0` at all. -/
theorem C3_output_name_takes_shape_dim_list :
    extractOutputTensorInfo tensorOutProto =
      Except.ok ⟨"float32", some "DT_FLOAT", JSVal.dims [2, 3], JSVal.undef⟩ ∧
    extractInputTensorInfo tensorOutProto =
      Except.ok ⟨"float32", some "DT_FLOAT", JSVal.str "out:0",
        JSVal.dims [2, 3]⟩ ∧
    getMetaGraphsFromSavedModel msgC3 =
      Except.ok [⟨["serve"], [("predict",
        ⟨[("x", ⟨"float32", some "DT_FLOAT", JSVal.str "in:0",
            JSVal.dims [1, 2]⟩)],
         [("y", ⟨"float32", some "DT_FLOAT", JSVal.dims [2, 3],
            JSVal.undef⟩)]⟩)]⟩] ∧
    JSVal.dims [2, 3] ≠ JSVal.str "out:0" :=
  ⟨rfl, rfl, rfl, by simp⟩

/-- C9: the load step checks read access of `path ++ "/saved_model.pb"`
before deserializing; an unreadable descriptor fails with the specific
error naming the path — and that is the only error the step can produce —
while a readable descriptor proceeds to the deserializer. -/
theorem C9_access_check_before_deserialization :
    ∀ (fs : FileSystem) (path : String),
      (fs.readable.contains (path ++ SAVED_MODEL_FILE_NAME) = false →
        readSavedModelProto fs path = Except.error
          ("There is no saved_model.pb file in the directory: " ++ path)) ∧
      (fs.readable.contains (path ++ SAVED_MODEL_FILE_NAME) = true →
        readSavedModelProto fs path =
          Except.ok (fs.contents (path ++ SAVED_MODEL_FILE_NAME))) ∧
      (∀ msg, readSavedModelProto fs path = Except.error msg →
        msg = "There is no saved_model.pb file in the directory: "
          ++ path) := by
  intro fs path
  refine ⟨?_, ?_, ?_⟩
  · intro h
    unfold readSavedModelProto
    rw [h]
    rfl
  · intro h
    unfold readSavedModelProto
    rw [h]
    rfl
  · intro msg hmsg
    unfold readSavedModelProto at hmsg
    split at hmsg
    · cases hmsg
    · cases hmsg
      rfl

/-- The filesystem of the C9 witness: only `/ok/saved_model.pb` is
readable, and deserialization yields the empty artifact message. -/
def fsC9 : FileSystem := ⟨["/ok/saved_model.pb"], fun _ => ⟨[]⟩⟩

/-- Witness for C9 at concrete paths. -/
theorem C9_access_check_before_deserialization_witness :
    readSavedModelProto fsC9 "/missing" = Except.error
      "There is no saved_model.pb file in the directory: /missing" ∧
    readSavedModelProto fsC9 "/ok" = Except.ok ⟨[]⟩ :=
  ⟨(C9_access_check_before_deserialization fsC9 "/missing").1 (by decide),
   (C9_access_check_before_deserialization fsC9 "/ok").2.1 (by decide)⟩

/-- C10: the reverse dtype lookup reports not-found (`none`) exactly when
no entry of the enumeration carries the code; feeding that not-found result
to the dtype mapper fails with the `UnknownDtype` error; and a symbolic
name outside the portable table fails with the `UnsupportedDtype` error
naming that symbol. -/
theorem C10_dtype_mapping_error_cases :
    (∀ (object : List (String × Nat)) (code : Nat),
      getEnumKeyFromValue object code = none ↔ ∀ kv ∈ object, kv.2 ≠ code) ∧
    (∀ (object : List (String × Nat)) (code : Nat),
      getEnumKeyFromValue object code = none →
      mapTFDtypeToJSDtype (getEnumKeyFromValue object code) =
        Except.error "UnknownDtype: dtype code has no defined symbolic name") ∧
    (∀ key : String, (∀ kv ∈ jsDtypeTable, kv.1 ≠ key) →
      mapTFDtypeToJSDtype (some key) =
        Except.error ("UnsupportedDtype: " ++ key)) := by
  refine ⟨?_, ?_, ?_⟩
  · intro object code
    simp [getEnumKeyFromValue, List.find?_eq_none]
  · intro object code h
    rw [h]
    rfl
  · intro key h
    have hfind : jsDtypeTable.find? (fun kv => kv.1 == key) = none :=
      List.find?_eq_none.mpr (fun kv hkv => by simp [h kv hkv])
    simp [mapTFDtypeToJSDtype, hfind]

/-- Witness for C10: code 999 has no symbolic name and is rejected as
unknown; `DT_DOUBLE` is a defined name with no portable equivalent and is
rejected as unsupported. -/
theorem C10_dtype_mapping_error_cases_witness :
    mapTFDtypeToJSDtype (getEnumKeyFromValue DataTypeEnum 999) =
      Except.error "UnknownDtype: dtype code has no defined symbolic name" ∧
    mapTFDtypeToJSDtype (some "DT_DOUBLE") =
      Except.error "UnsupportedDtype: DT_DOUBLE" ∧
    (getEnumKeyFromValue DataTypeEnum 999 = none ↔
      ∀ kv ∈ DataTypeEnum, kv.2 ≠ 999) :=
  ⟨C10_dtype_mapping_error_cases.2.1 DataTypeEnum 999 rfl,
   C10_dtype_mapping_error_cases.2.2 "DT_DOUBLE" (by decide),
   C10_dtype_mapping_error_cases.1 DataTypeEnum 999⟩

end SavedModels
